import Mathlib

/-!
# Verification of the `pulumi-amplify` component library

A shallow embedding, in Lean 4, of the Python sources
`pulumi_amplify/amplify_graphql_api.py` and `pulumi_amplify/random_id.py`,
together with theorems settling the specification claims about them.

Conventions of the embedding:
* Python strings become Lean `String`s (lists of characters where convenient).
* The filesystem becomes an association list from full paths to file contents;
  `Path.read_text` becomes a lookup returning `Except`, whose `error` carries
  the `FileNotFoundError` message.
* `os.urandom` becomes an infinite byte source `Nat → Fin 256` (the i-th byte
  drawn); machine bytes are values below 256, which `Fin 256` captures exactly.
* Resource declarations against the Pulumi engine become plain records; values
  that only the engine resolves at apply time (account id, generated ids,
  endpoint URIs, auto-generated physical names) are supplied by an `Env`
  record of resolved values.
* Python `re.match` of the one pattern used by the code,
  `^([a-zA-Z]+)\.([a-zA-Z]+<TypeName>s?)\.req\.vtl$`, is embedded directly as
  a matcher for that pattern family.  Note the Python `$` anchor also matches
  just before a single newline at the very end of the string; the embedding
  reproduces this.
-/

/-- ASCII letter test: exactly the character class `[a-zA-Z]` of the regex. -/
def latinAlpha (c : Char) : Bool :=
  ('a' ≤ c && c ≤ 'z') || ('A' ≤ c && c ≤ 'Z')

/-- All characters of a string are ASCII letters. -/
def alphaStr (s : String) : Bool :=
  s.data.all latinAlpha

/-- Python `$` (without MULTILINE) lets a match end either at the end of the
string or just before a final newline.  Since no element of the resolver
pattern can consume a newline, `re.match` of that anchored pattern against `s`
is a full match of the pattern body against `s` with one trailing newline, if
present, removed.  This function removes that optional final newline. -/
def stripFinalNewline (s : List Char) : List Char :=
  if s.getLast? = some '\n' then s.dropLast else s

/-- Split a character list at its first `'.'`: `some (before, after)` when a
dot occurs, `none` otherwise.  Both regex groups are built from `[a-zA-Z]`,
which cannot match a dot, and each is followed by a literal `\.`, so in any
successful match the group extends exactly to the next dot. -/
def splitAtFirstDot : List Char → Option (List Char × List Char)
  | [] => none
  | c :: cs =>
    if c = '.' then some ([], cs)
    else
      match splitAtFirstDot cs with
      | none => none
      | some (a, b) => some (c :: a, b)

/-- The group-2 subpattern `[a-zA-Z]+<t>s?`: `g` decomposes as a nonempty
run of ASCII letters, then the interpolated type name `t`, then an optional
literal `'s'`. -/
def opNameMatches (t g : List Char) : Bool :=
  (decide (t.length < g.length)
      && decide (g.drop (g.length - t.length) = t)
      && (g.take (g.length - t.length)).all latinAlpha)
  || (decide (t.length + 1 < g.length)
      && decide (g.drop (g.length - (t.length + 1)) = t ++ ['s'])
      && (g.take (g.length - (t.length + 1))).all latinAlpha)

/-- The characters of the literal tail `req.vtl` that follows group 2. -/
def reqVtlChars : List Char := ['r', 'e', 'q', '.', 'v', 't', 'l']

/-- Embedding of
`match("^([a-zA-Z]+)\\.([a-zA-Z]+{type_name}s?)\\.req\\.vtl$", filename)`
from `generate_resolvers`: returns the two captured groups (operation type
and operation name) on success.  Assumes the interpolated `typeName` is made
of ASCII letters, as every GraphQL type name used with this component is, so
that its characters read as regex literals. -/
def resolverMatch (typeName filename : String) : Option (String × String) :=
  match splitAtFirstDot (stripFinalNewline filename.data) with
  | none => none
  | some (g1, rest) =>
    if g1 ≠ [] ∧ g1.all latinAlpha then
      match splitAtFirstDot rest with
      | none => none
      | some (g2, tail) =>
        if tail = reqVtlChars ∧ opNameMatches typeName.data g2 then
          some (⟨g1⟩, ⟨g2⟩)
        else none
    else none

example : resolverMatch "Note" "Query.getNote.req.vtl" = some ("Query", "getNote") := by decide
example : resolverMatch "Note" "Query.getNotes.req.vtl" = some ("Query", "getNotes") := by decide
example : resolverMatch "Note" "Mutation.updateThing.req.vtl" = none := by decide
example : resolverMatch "Note" "Query.Note.req.vtl" = none := by decide
example : resolverMatch "Note" "Query.Notes.req.vtl" = none := by decide
example : resolverMatch "Note" "Query.getNote.req.vtl\n" = some ("Query", "getNote") := by decide
example : resolverMatch "Note" "Query.getNote.req.vtl\n\n" = none := by decide
example : resolverMatch "Note" "Query.getNote.res.vtl" = none := by decide
example : resolverMatch "Note" "Query.get.Note.req.vtl" = none := by decide

/-! ## `random_id.py` -/

/-- `math.ceil(chars / 2)` of `RandomId.generate`, computed exactly on the
integer argument: the ceiling of `n / 2` equals the floor of `(n + 1) / 2`. -/
def ceilHalf (n : Int) : Int :=
  Int.fdiv (n + 1) 2

/-- One hexadecimal digit, lowercase, as `binascii.b2a_hex` prints a nibble. -/
def hexDigit (n : Nat) : Char :=
  if n < 10 then Char.ofNat ('0'.toNat + n) else Char.ofNat ('a'.toNat + (n - 10))

/-- `binascii.b2a_hex` of a single byte: high nibble then low nibble. -/
def byteToHex (b : Fin 256) : List Char :=
  [hexDigit (b.val / 16), hexDigit (b.val % 16)]

/-- Python slice `s[0:stop]` on a character list: a negative `stop` counts
from the end (clamped at zero), a non-negative one from the start. -/
def pySliceTo (l : List Char) (stop : Int) : List Char :=
  if 0 ≤ stop then l.take stop.toNat else l.take (l.length - (-stop).toNat)

/-- `RandomId.generate(chars)` with the random source made explicit: draws
`ceil(chars / 2)` bytes from `src` (`os.urandom`), hex-encodes them
(`binascii.b2a_hex(...).decode("utf-8")`), and returns `string[0:chars]`.
`os.urandom` raises `ValueError` when its argument is negative, which the
`error` case records. -/
def RandomId.generate (src : Nat → Fin 256) (chars : Int) : Except String String :=
  let charBytes := ceilHalf chars
  if charBytes < 0 then
    Except.error "ValueError: negative argument not allowed"
  else
    let bytes := (List.range charBytes.toNat).map src
    let string : List Char := (bytes.map byteToHex).flatten
    Except.ok ⟨pySliceTo string chars⟩

/-- A character the lowercase hexadecimal alphabet contains. -/
def isLowerHex (c : Char) : Bool :=
  ('0' ≤ c && c ≤ '9') || ('a' ≤ c && c ≤ 'f')

example : RandomId.generate (fun _ => (0 : Fin 256)) 8 = Except.ok "00000000" := rfl
example : RandomId.generate (fun _ => (255 : Fin 256)) 5 = Except.ok "fffff" := rfl
example : RandomId.generate (fun _ => (0 : Fin 256)) 0 = Except.ok "" := rfl
example : RandomId.generate (fun _ => (0 : Fin 256)) (-1) = Except.ok "" := rfl
example : RandomId.generate (fun _ => (0 : Fin 256)) (-2)
    = Except.error "ValueError: negative argument not allowed" := rfl

/-! ## The filesystem model -/

/-- The filesystem visible to the component: an association list from full
paths to file contents. -/
def FileSystem := List (String × String)

/-- Path lookup in the filesystem. -/
def findFile : FileSystem → String → Option String
  | [], _ => none
  | (p, c) :: rest, q => if p = q then some c else findFile rest q

/-- `Path.read_text`: the content when the path exists, otherwise the
`FileNotFoundError` the call raises. -/
def readText (fs : FileSystem) (path : String) : Except String String :=
  match findFile fs path with
  | some c => Except.ok c
  | none => Except.error ("FileNotFoundError: " ++ path)

/-- Strip a fixed prefix from a character list, when present. -/
def dropPrefixChars : List Char → List Char → Option (List Char)
  | [], s => some s
  | _ :: _, [] => none
  | p :: ps, c :: cs => if c = p then dropPrefixChars ps cs else none

/-- `Path.iterdir` on the directory `dir`: the entries of the filesystem whose
path is `dir ++ "/" ++ name` with `name` a nonempty direct child (no further
separator), listed as (name, content) in filesystem order. -/
def iterdir (fs : FileSystem) (dir : String) : List (String × String) :=
  fs.filterMap fun e =>
    match dropPrefixChars (dir.data ++ ['/']) e.1.data with
    | some rest => if rest ≠ [] ∧ '/' ∉ rest then some (⟨rest⟩, e.2) else none
    | none => none

example :
    iterdir [("d/a.txt", "x"), ("d/sub/b.txt", "y"), ("e/c.txt", "z"), ("d/c", "w")] "d"
      = [("a.txt", "x"), ("c", "w")] := by decide

/-! ## The resource model

Records for the resources `amplify_graphql_api.py` declares.  Values that the
provisioning engine resolves only at apply time are drawn from `Env`. -/

/-- The apply-time values the Pulumi engine resolves: the provider region and
caller account id (`config.region`, `get_caller_identity().account_id`), the
generated id and `GRAPHQL` endpoint URI of the declared AppSync API, and the
auto-generated physical name and ARN the engine assigns to a resource
declared without an explicit name (keyed by its Pulumi resource name). -/
structure Env where
  region : String
  accountId : String
  graphqlApiId : String
  graphqlUri : String
  autoName : String → String
  autoArn : String → String

/-- The `appsync.GraphQLApi` declaration. -/
structure GraphQLApi where
  resourceName : String
  authenticationType : String
  defaultAction : String
  userPoolId : String
  appIdClientRegex : String
  schema : String
  id : String
  uriGraphql : String
  deriving DecidableEq

/-- The `dynamodb.Table` declaration: explicit physical `name`, one hash key
`id` of string type, on-demand billing. -/
structure Table where
  resourceName : String
  name : String
  hashKey : String
  attributes : List (String × String)
  billingMode : String
  deriving DecidableEq

/-- The `iam.Role` declaration.  The assume-role policy document is the fixed
JSON literal of the source, recorded by the service principal it trusts; the
physical name and ARN are engine-assigned. -/
structure Role where
  resourceName : String
  trustedService : String
  trustedAction : String
  name : String
  arn : String
  deriving DecidableEq

/-- One statement of an IAM policy document. -/
structure PolicyStatement where
  effect : String
  actions : List String
  resources : List String
  deriving DecidableEq

/-- The `iam.RolePolicy` declaration: the inline policy document is the JSON
literal of the source, recorded structurally. -/
structure RolePolicy where
  resourceName : String
  role : String
  name : String
  policyVersion : String
  policyStatements : List PolicyStatement
  deriving DecidableEq

/-- The `appsync.DataSource` declaration.  `dependsOn` records the
`ResourceOptions(depends_on=[data_source_iam_role])` option. -/
structure DataSource where
  resourceName : String
  apiId : String
  name : String
  type : String
  serviceRoleArn : String
  dynamodbTableName : String
  dependsOn : List String
  deriving DecidableEq

/-- The `appsync.Resolver` declaration. -/
structure Resolver where
  resourceName : String
  apiId : String
  dataSource : String
  field : String
  type : String
  requestTemplate : String
  responseTemplate : String
  deriving DecidableEq

/-- The dictionary `generate_dynamo_data_source` returns, plus the loop
variable `type_name` it was called with. -/
structure TypeResources where
  typeName : String
  table : Table
  dataSourceIamRole : Role
  dataSourceIamRolePolicy : RolePolicy
  dataSource : DataSource
  resolvers : List Resolver
  deriving DecidableEq

/-- The eight `dynamodb:*` actions of the inline policy literal in
`generate_dynamo_data_source`, in source order. -/
def dynamoDbActions : List String :=
  ["dynamodb:BatchGetItem", "dynamodb:BatchWriteItem", "dynamodb:PutItem",
   "dynamodb:DeleteItem", "dynamodb:GetItem", "dynamodb:Scan",
   "dynamodb:Query", "dynamodb:UpdateItem"]

/-- The table ARN interpolated into the inline policy document:
`arn:aws:dynamodb:{aws_region}:{account_id}:table/{table_name}`. -/
def tableArn (region accountId tableName : String) : String :=
  "arn:aws:dynamodb:" ++ region ++ ":" ++ accountId ++ ":table/" ++ tableName

/-! ## `generate_resolvers` -/

/-- The iteration body of `generate_resolvers` over the entries of
`resolvers_dir` (name and content of each entry): a non-matching name is
skipped; a matching one reads the sibling
`{operation_type}.{operation_name}.res.vtl` through the filesystem (raising
`FileNotFoundError` when absent) and declares one `appsync.Resolver` with the
captured groups as type and field. -/
def generateResolversFrom (fs : FileSystem) (resolversDir stackName apiId dataSourceName typeName : String) :
    List (String × String) → Except String (List Resolver)
  | [] => Except.ok []
  | (name, content) :: rest =>
    match resolverMatch typeName name with
    | none => generateResolversFrom fs resolversDir stackName apiId dataSourceName typeName rest
    | some (operationType, operationName) =>
      match readText fs (resolversDir ++ "/" ++ operationType ++ "." ++ operationName ++ ".res.vtl") with
      | Except.error e => Except.error e
      | Except.ok responseTemplate =>
        match generateResolversFrom fs resolversDir stackName apiId dataSourceName typeName rest with
        | Except.error e => Except.error e
        | Except.ok rs =>
          Except.ok
            ({ resourceName := stackName ++ "_" ++ operationName ++ "_resolver"
               apiId := apiId
               dataSource := dataSourceName
               field := operationName
               type := operationType
               requestTemplate := content
               responseTemplate := responseTemplate } :: rs)

/-- `generate_resolvers`: iterates over the `resolvers` directory inside the
build directory. -/
def generateResolvers (fs : FileSystem) (buildDir stackName apiId dataSourceName typeName : String) :
    Except String (List Resolver) :=
  generateResolversFrom fs (buildDir ++ "/resolvers") stackName apiId dataSourceName typeName
    (iterdir fs (buildDir ++ "/resolvers"))

/-! ## `generate_dynamo_data_source` -/

/-- `generate_dynamo_data_source`: declares the DynamoDB table, the data
source IAM role, its inline role policy (scoped to the table ARN and its
`/*` sub-resources, granting `dynamoDbActions`), the AppSync data source
(depending on the role), and the resolver set for the type. -/
def generateDynamoDataSource (env : Env) (fs : FileSystem) (buildDir stackName randomChars : String)
    (graphqlApi : GraphQLApi) (typeName : String) : Except String TypeResources :=
  let table : Table :=
    { resourceName := stackName ++ "_" ++ typeName ++ "_table"
      name := stackName ++ "_" ++ randomChars ++ "." ++ typeName
      hashKey := "id"
      attributes := [("id", "S")]
      billingMode := "PAY_PER_REQUEST" }
  let dataSourceIamRole : Role :=
    { resourceName := stackName ++ "_" ++ typeName ++ "_role"
      trustedService := "appsync.amazonaws.com"
      trustedAction := "sts:AssumeRole"
      name := env.autoName (stackName ++ "_" ++ typeName ++ "_role")
      arn := env.autoArn (stackName ++ "_" ++ typeName ++ "_role") }
  let dataSourceIamRolePolicy : RolePolicy :=
    { resourceName := stackName ++ "_" ++ typeName ++ "_role_policy"
      role := dataSourceIamRole.name
      name := "MyDynamoDBAccess"
      policyVersion := "2012-10-17"
      policyStatements :=
        [{ effect := "Allow"
           actions := dynamoDbActions
           resources :=
             [tableArn env.region env.accountId table.name,
              tableArn env.region env.accountId table.name ++ "/*"] }] }
  let dataSource : DataSource :=
    { resourceName := stackName ++ "_" ++ typeName ++ "_data_source"
      apiId := graphqlApi.id
      name := typeName ++ "TableDataSource_" ++ randomChars
      type := "AMAZON_DYNAMODB"
      serviceRoleArn := dataSourceIamRole.arn
      dynamodbTableName := table.name
      dependsOn := [dataSourceIamRole.resourceName] }
  match generateResolvers fs buildDir stackName graphqlApi.id dataSource.name typeName with
  | Except.error e => Except.error e
  | Except.ok resolvers =>
    Except.ok
      { typeName := typeName
        table := table
        dataSourceIamRole := dataSourceIamRole
        dataSourceIamRolePolicy := dataSourceIamRolePolicy
        dataSource := dataSource
        resolvers := resolvers }

/-! ## `AmplifyGraphQLAPI.__init__` -/

/-- The 8-character random suffix `RandomId.generate(8)` the constructor
computes once; for the argument 8 the generator never raises, so the error
branch of the `Except` is vacuous. -/
def randomId8 (src : Nat → Fin 256) : String :=
  match RandomId.generate src 8 with
  | Except.ok s => s
  | Except.error _ => ""

/-- The build directory `Path("amplify/backend/api") / amplify_api_name / "build"`. -/
def amplifyApiBuildDir (amplifyApiName : String) : String :=
  "amplify/backend/api/" ++ amplifyApiName ++ "/build"

/-- The schema path `amplify_api_build_dir / "schema.graphql"`. -/
def schemaPath (amplifyApiName : String) : String :=
  amplifyApiBuildDir amplifyApiName ++ "/schema.graphql"

/-- The `AmplifyExportsFile` declaration made at the end of the constructor:
only its arguments are modelled (the writer itself is an external
collaborator). -/
structure ExportsFile where
  resourceName : String
  sourceDirectory : String
  parameters : List (String × String)
  deriving DecidableEq

/-- The component after construction: the declared AppSync API, the per-type
resources declared by the loop (in type-list order), the exports file, and
the registered `graphql_api_uri` output. -/
structure Component where
  graphqlApi : GraphQLApi
  perType : List TypeResources
  exportsFile : ExportsFile
  graphql_api_uri : String
  deriving DecidableEq

/-- The loop `for type_name in graphql_types: ... generate_dynamo_data_source
(...)`: each iteration declares one type's resources; a raise aborts the
whole construction.  The declared resources are collected in loop order (the
source binds and then discards each result). -/
def declareTypes (env : Env) (fs : FileSystem) (buildDir stackName randomChars : String)
    (graphqlApi : GraphQLApi) : List String → Except String (List TypeResources)
  | [] => Except.ok []
  | t :: ts =>
    match generateDynamoDataSource env fs buildDir stackName randomChars graphqlApi t with
    | Except.error e => Except.error e
    | Except.ok r =>
      match declareTypes env fs buildDir stackName randomChars graphqlApi ts with
      | Except.error e => Except.error e
      | Except.ok rs => Except.ok (r :: rs)

/-- `AmplifyGraphQLAPI.__init__`: reads the schema from
`amplify/backend/api/<api-name>/build/schema.graphql`, declares the AppSync
GraphQL API with Cognito user-pool authentication and ALLOW default action,
declares each type's resources, declares the exports file, and registers the
`graphql_api_uri` output. -/
def amplifyGraphQLAPI (env : Env) (src : Nat → Fin 256) (fs : FileSystem)
    (_name amplifyApiName : String) (graphqlTypes : List String)
    (userPoolId userPoolClientId clientSourcePath : String) :
    Except String Component :=
  let stackName := amplifyApiName
  let randomChars := randomId8 src
  let buildDir := amplifyApiBuildDir amplifyApiName
  match readText fs (schemaPath amplifyApiName) with
  | Except.error e => Except.error e
  | Except.ok schema =>
    let graphqlApi : GraphQLApi :=
      { resourceName := stackName ++ "_graphql_api"
        authenticationType := "AMAZON_COGNITO_USER_POOLS"
        defaultAction := "ALLOW"
        userPoolId := userPoolId
        appIdClientRegex := userPoolClientId
        schema := schema
        id := env.graphqlApiId
        uriGraphql := env.graphqlUri }
    match declareTypes env fs buildDir stackName randomChars graphqlApi graphqlTypes with
    | Except.error e => Except.error e
    | Except.ok perType =>
      let exportsFile : ExportsFile :=
        { resourceName := stackName ++ "_exports_file"
          sourceDirectory := clientSourcePath
          parameters :=
            [("aws_project_region", env.region),
             ("aws_cognito_region", env.region),
             ("aws_user_pools_id", userPoolId),
             ("aws_user_pools_web_client_id", userPoolClientId),
             ("aws_appsync_graphqlEndpoint", graphqlApi.uriGraphql),
             ("aws_appsync_region", env.region),
             ("aws_appsync_authenticationType", "AMAZON_COGNITO_USER_POOLS")] }
      Except.ok
        { graphqlApi := graphqlApi
          perType := perType
          exportsFile := exportsFile
          graphql_api_uri := graphqlApi.uriGraphql }

/-! ## Concrete evaluation environment

A small deterministic environment and filesystem mirroring the repository's
example (`example/__main__.py`: API `notespulumi`, types `["Note"]`), used to
evaluate the definitions on closed inputs. -/

/-- A concrete resolved environment. -/
def env0 : Env :=
  { region := "eu-west-1"
    accountId := "123456789012"
    graphqlApiId := "api0000"
    graphqlUri := "https://abc.appsync-api.eu-west-1.amazonaws.com/graphql"
    autoName := fun s => s ++ "-0a1b2c"
    autoArn := fun s => "arn:aws:iam::123456789012:role/" ++ s ++ "-0a1b2c" }

/-- A concrete all-zero random byte source. -/
def src0 : Nat → Fin 256 := fun _ => (0 : Fin 256)

/-- The resolver directory of the example API. -/
def resolversDir0 : String := "amplify/backend/api/notespulumi/build/resolvers"

/-- A concrete filesystem with the example schema and three resolver template
pairs. -/
def fs0 : FileSystem :=
  [(schemaPath "notespulumi", "type Note \x7b id: ID! \x7d"),
   (resolversDir0 ++ "/Query.getNote.req.vtl", "REQ-getNote"),
   (resolversDir0 ++ "/Query.getNote.res.vtl", "RES-getNote"),
   (resolversDir0 ++ "/Query.getNotes.req.vtl", "REQ-getNotes"),
   (resolversDir0 ++ "/Query.getNotes.res.vtl", "RES-getNotes"),
   (resolversDir0 ++ "/Mutation.updateThing.req.vtl", "REQ-updateThing"),
   (resolversDir0 ++ "/Mutation.updateThing.res.vtl", "RES-updateThing")]

example : randomId8 src0 = "00000000" := rfl

/-- The GraphQL API resource as declared for `notespulumi` in `env0`. -/
def api0 : GraphQLApi :=
  { resourceName := "notespulumi_graphql_api"
    authenticationType := "AMAZON_COGNITO_USER_POOLS"
    defaultAction := "ALLOW"
    userPoolId := "pool0"
    appIdClientRegex := "client0"
    schema := "type Note \x7b id: ID! \x7d"
    id := "api0000"
    uriGraphql := "https://abc.appsync-api.eu-west-1.amazonaws.com/graphql" }

/-- A resolver directory holding `Query.Note.req.vtl` (operation name equal to
the type name, no preceding characters) and its response sibling. -/
def fsNoPrefix : FileSystem :=
  [(resolversDir0 ++ "/Query.Note.req.vtl", "REQ-Note"),
   (resolversDir0 ++ "/Query.Note.res.vtl", "RES-Note")]

/-- A resolver directory holding `Query.Note.req.vtl` and `Query.Notes.req.vtl`
(operation name equal to the type name, bare and pluralized) with their
response siblings. -/
def fsBareNames : FileSystem :=
  [(resolversDir0 ++ "/Query.Note.req.vtl", "REQ-Note"),
   (resolversDir0 ++ "/Query.Note.res.vtl", "RES-Note"),
   (resolversDir0 ++ "/Query.Notes.req.vtl", "REQ-Notes"),
   (resolversDir0 ++ "/Query.Notes.res.vtl", "RES-Notes")]

/-- A filesystem with the schema and a matching request template whose
response sibling is missing. -/
def fsMissingRes : FileSystem :=
  [(schemaPath "notespulumi", "type Note \x7b id: ID! \x7d"),
   (resolversDir0 ++ "/Query.getNote.req.vtl", "REQ-getNote")]

/-- A filesystem with no schema file. -/
def fsNoSchema : FileSystem :=
  [(resolversDir0 ++ "/Query.getNote.req.vtl", "REQ-getNote"),
   (resolversDir0 ++ "/Query.getNote.res.vtl", "RES-getNote")]

example :
    (amplifyGraphQLAPI env0 src0 fs0 "NotesAmplifyGraphQLAPI" "notespulumi" ["Note"]
        "pool0" "client0" "src").isOk = true := by decide

/-! ## Characterisation of the filename matcher -/

theorem latinAlpha_ne_dot {c : Char} (h : latinAlpha c = true) : c ≠ '.' := by
  intro he
  subst he
  exact absurd h (by decide)

theorem not_dot_mem_of_all_alpha {l : List Char} (h : l.all latinAlpha = true) : '.' ∉ l := by
  intro hm
  exact latinAlpha_ne_dot (List.all_eq_true.mp h _ hm) rfl

theorem splitAtFirstDot_cons_dot (cs : List Char) :
    splitAtFirstDot ('.' :: cs) = some ([], cs) := by
  simp [splitAtFirstDot]

theorem splitAtFirstDot_cons_ne {c : Char} (hc : c ≠ '.') (cs : List Char) :
    splitAtFirstDot (c :: cs) = (splitAtFirstDot cs).map (fun ab => (c :: ab.1, ab.2)) := by
  simp only [splitAtFirstDot, if_neg hc]
  cases splitAtFirstDot cs with
  | none => rfl
  | some ab => cases ab; rfl

theorem splitAtFirstDot_eq_some {s a b : List Char} :
    splitAtFirstDot s = some (a, b) ↔ s = a ++ '.' :: b ∧ '.' ∉ a := by
  induction s generalizing a with
  | nil =>
    constructor
    · intro h
      simp [splitAtFirstDot] at h
    · rintro ⟨h, -⟩
      exact absurd h.symm (by simp)
  | cons c cs ih =>
    by_cases hc : c = '.'
    · subst hc
      rw [splitAtFirstDot_cons_dot]
      constructor
      · intro h
        have hab : a = [] ∧ cs = b := by simpa using h
        rcases hab with ⟨rfl, rfl⟩
        exact ⟨rfl, by simp⟩
      · rintro ⟨heq, hnd⟩
        cases a with
        | nil =>
          simp only [List.nil_append, List.cons.injEq] at heq
          rw [heq.2]
        | cons x xs =>
          simp only [List.cons_append, List.cons.injEq] at heq
          exact absurd (heq.1 ▸ List.mem_cons_self x xs) hnd
    · rw [splitAtFirstDot_cons_ne hc]
      constructor
      · intro h
        rcases Option.map_eq_some'.mp h with ⟨⟨a', b'⟩, hsp, hf⟩
        have ha : a = c :: a' ∧ b = b' := by
          constructor
          · exact (congrArg Prod.fst hf).symm
          · exact (congrArg Prod.snd hf).symm
        rcases ha with ⟨rfl, rfl⟩
        rcases ih.mp hsp with ⟨rfl, hnd⟩
        constructor
        · simp
        · intro hm
          rcases List.mem_cons.mp hm with h1 | h2
          · exact hc h1.symm
          · exact hnd h2
      · rintro ⟨heq, hnd⟩
        cases a with
        | nil =>
          simp only [List.nil_append, List.cons.injEq] at heq
          exact absurd heq.1 hc
        | cons x xs =>
          simp only [List.cons_append, List.cons.injEq] at heq
          rcases heq with ⟨rfl, heq2⟩
          have hnd' : '.' ∉ xs := fun hm => hnd (List.mem_cons_of_mem _ hm)
          rw [ih.mpr ⟨heq2, hnd'⟩]
          rfl

theorem opNameMatches_iff {t g : List Char} :
    opNameMatches t g = true ↔
      ∃ p, p ≠ [] ∧ p.all latinAlpha = true ∧ (g = p ++ t ∨ g = p ++ t ++ ['s']) := by
  simp only [opNameMatches, Bool.or_eq_true, Bool.and_eq_true, decide_eq_true_eq]
  constructor
  · rintro (⟨⟨hlen, hdrop⟩, htake⟩ | ⟨⟨hlen, hdrop⟩, htake⟩)
    · refine ⟨g.take (g.length - t.length), ?_, htake, Or.inl ?_⟩
      · intro hnil
        have := congrArg List.length hnil
        simp [List.length_take] at this
        omega
      · conv_lhs => rw [← List.take_append_drop (g.length - t.length) g]
        rw [hdrop]
    · refine ⟨g.take (g.length - (t.length + 1)), ?_, htake, Or.inr ?_⟩
      · intro hnil
        have := congrArg List.length hnil
        simp [List.length_take] at this
        omega
      · rw [List.append_assoc]
        conv_lhs => rw [← List.take_append_drop (g.length - (t.length + 1)) g]
        rw [hdrop]
  · rintro ⟨p, hne, halpha, rfl | rfl⟩
    · have hp : 0 < p.length := List.length_pos.mpr hne
      have hlen : (p ++ t).length - t.length = p.length := by
        simp [List.length_append]
      refine Or.inl ⟨⟨?_, ?_⟩, ?_⟩
      · simp [List.length_append]; omega
      · rw [hlen, List.drop_left]
      · rw [hlen, List.take_left]
        exact halpha
    · have hp : 0 < p.length := List.length_pos.mpr hne
      have hassoc : p ++ t ++ ['s'] = p ++ (t ++ ['s']) := by
        rw [List.append_assoc]
      have hlen : (p ++ t ++ ['s']).length - (t.length + 1) = p.length := by
        simp [List.length_append]
      refine Or.inr ⟨⟨?_, ?_⟩, ?_⟩
      · simp [List.length_append]; omega
      · rw [hlen, hassoc]
        have : t ++ ['s'] = (t ++ ['s'] : List Char) := rfl
        rw [show p.length = (p : List Char).length from rfl, List.drop_left]
      · rw [hlen, hassoc, List.take_left]
        exact halpha

theorem stripFinalNewline_of_ne {s : List Char} (h : s.getLast? ≠ some '\n') :
    stripFinalNewline s = s := by
  simp [stripFinalNewline, h]

theorem stripFinalNewline_concat_newline (s : List Char) :
    stripFinalNewline (s ++ ['\n']) = s := by
  simp [stripFinalNewline, List.getLast?_concat, List.dropLast_concat]

theorem stripFinalNewline_cases (s : List Char) :
    s = stripFinalNewline s ∨ s = stripFinalNewline s ++ ['\n'] := by
  by_cases h : s.getLast? = some '\n'
  · rcases List.getLast?_eq_some_iff.mp h with ⟨l', rfl⟩
    rw [stripFinalNewline_concat_newline]
    exact Or.inr rfl
  · rw [stripFinalNewline_of_ne h]
    exact Or.inl rfl

/-- The tail of the pattern after the first dot of a matching name:
`<name>.req.vtl` as characters. -/
theorem dotReqVtl_data : (".req.vtl" : String).data = '.' :: reqVtlChars := by
  decide

theorem dot_data : ("." : String).data = ['.'] := by
  decide

theorem newline_data : ("\n" : String).data = ['\n'] := by
  decide

/-- Full characterisation of the embedded `re.match` call: for a type name
made of ASCII letters, the pattern
`^([a-zA-Z]+)\.([a-zA-Z]+<T>s?)\.req\.vtl$` matches `f` with groups `(k, n)`
exactly when `f` is `<k>.<n>.req.vtl` — optionally followed by one trailing
newline, which the Python `$` anchor tolerates — with `k` a nonempty run of
ASCII letters and `n` a nonempty run of ASCII letters followed by `T` and an
optional final `'s'`. -/
theorem resolverMatch_eq_some_iff {T f k n : String} (hT : alphaStr T = true) :
    resolverMatch T f = some (k, n) ↔
      ((f = k ++ "." ++ n ++ ".req.vtl" ∨ f = k ++ "." ++ n ++ ".req.vtl" ++ "\n")
        ∧ k.data ≠ [] ∧ alphaStr k = true
        ∧ ∃ p : String, p.data ≠ [] ∧ alphaStr p = true ∧ (n = p ++ T ∨ n = p ++ T ++ "s")) := by
  constructor
  · intro h
    unfold resolverMatch at h
    cases hsp1 : splitAtFirstDot (stripFinalNewline f.data) with
    | none =>
      rw [hsp1] at h
      exact absurd h (by simp)
    | some g1rest =>
      obtain ⟨g1, rest⟩ := g1rest
      rw [hsp1] at h
      simp only at h
      by_cases h1 : g1 ≠ [] ∧ g1.all latinAlpha = true
      swap
      · rw [if_neg h1] at h
        exact absurd h (by simp)
      rw [if_pos h1] at h
      cases hsp2 : splitAtFirstDot rest with
      | none =>
        rw [hsp2] at h
        exact absurd h (by simp)
      | some g2tail =>
        obtain ⟨g2, tail⟩ := g2tail
        rw [hsp2] at h
        simp only at h
        by_cases h2 : tail = reqVtlChars ∧ opNameMatches T.data g2 = true
        swap
        · rw [if_neg h2] at h
          exact absurd h (by simp)
        rw [if_pos h2] at h
        simp only [Option.some.injEq, Prod.mk.injEq] at h
        obtain ⟨hk, hn⟩ := h
        subst hk
        subst hn
        obtain ⟨hs1, -⟩ := splitAtFirstDot_eq_some.mp hsp1
        obtain ⟨hs2, -⟩ := splitAtFirstDot_eq_some.mp hsp2
        have hbody : stripFinalNewline f.data
            = ((⟨g1⟩ : String) ++ "." ++ (⟨g2⟩ : String) ++ ".req.vtl").data := by
          rw [String.data_append, String.data_append, String.data_append,
            dotReqVtl_data, dot_data]
          rw [hs1, hs2, h2.1]
          simp
        refine ⟨?_, h1.1, h1.2, ?_⟩
        · rcases stripFinalNewline_cases f.data with hf | hf
          · left
            apply String.ext
            rw [hf, hbody]
          · right
            apply String.ext
            rw [String.data_append, newline_data]
            rw [hf, hbody]
        · obtain ⟨p, hpne, hpalpha, hg2⟩ := opNameMatches_iff.mp h2.2
          refine ⟨⟨p⟩, hpne, hpalpha, ?_⟩
          cases hg2 with
          | inl hg2 =>
            left
            apply String.ext
            rw [String.data_append, hg2]
          | inr hg2 =>
            right
            apply String.ext
            rw [String.data_append, String.data_append, hg2]
  · rintro ⟨hf, hkne, hkalpha, p, hpne, hpalpha, hn⟩
    have hnalpha : n.data.all latinAlpha = true := by
      rcases hn with rfl | rfl
      · rw [String.data_append, List.all_append]
        rw [show p.data.all latinAlpha = true from hpalpha,
          show T.data.all latinAlpha = true from hT]
        rfl
      · rw [String.data_append, String.data_append, List.all_append, List.all_append]
        rw [show p.data.all latinAlpha = true from hpalpha,
          show T.data.all latinAlpha = true from hT]
        rfl
    have hbodydata : (k ++ "." ++ n ++ ".req.vtl").data
        = k.data ++ '.' :: (n.data ++ '.' :: reqVtlChars) := by
      rw [String.data_append, String.data_append, String.data_append,
        dotReqVtl_data, dot_data]
      simp
    have hlast : (k.data ++ '.' :: (n.data ++ '.' :: reqVtlChars)).getLast? = some 'l' := by
      have hsplit : k.data ++ '.' :: (n.data ++ '.' :: reqVtlChars)
          = (k.data ++ '.' :: (n.data ++ ['.', 'r', 'e', 'q', '.', 'v', 't'])) ++ ['l'] := by
        simp [reqVtlChars]
      rw [hsplit, List.getLast?_concat]
    have hstrip : stripFinalNewline f.data
        = k.data ++ '.' :: (n.data ++ '.' :: reqVtlChars) := by
      rcases hf with rfl | rfl
      · rw [hbodydata]
        exact stripFinalNewline_of_ne (by rw [hlast]; decide)
      · rw [String.data_append, newline_data, hbodydata, stripFinalNewline_concat_newline]
    unfold resolverMatch
    rw [hstrip]
    have hsp1 : splitAtFirstDot (k.data ++ '.' :: (n.data ++ '.' :: reqVtlChars))
        = some (k.data, n.data ++ '.' :: reqVtlChars) :=
      splitAtFirstDot_eq_some.mpr ⟨rfl, not_dot_mem_of_all_alpha hkalpha⟩
    have hsp2 : splitAtFirstDot (n.data ++ '.' :: reqVtlChars) = some (n.data, reqVtlChars) :=
      splitAtFirstDot_eq_some.mpr ⟨rfl, not_dot_mem_of_all_alpha hnalpha⟩
    have hop : opNameMatches T.data n.data = true := by
      apply opNameMatches_iff.mpr
      refine ⟨p.data, hpne, hpalpha, ?_⟩
      rcases hn with rfl | rfl
      · left
        rw [String.data_append]
      · right
        rw [String.data_append, String.data_append]
    simp only [hsp1]
    rw [if_pos ⟨hkne, hkalpha⟩]
    simp only [hsp2]
    rw [if_pos ⟨trivial, hop⟩]

/-! ## Lemmas about `RandomId.generate` -/

theorem ceilHalf_eq (n : Int) : ceilHalf n = (n + 1) / 2 :=
  Int.fdiv_eq_ediv (n + 1) (by norm_num)

theorem hexChars_length (bs : List (Fin 256)) :
    ((bs.map byteToHex).flatten).length = 2 * bs.length := by
  induction bs with
  | nil => rfl
  | cons b bs ih =>
    simp only [List.map_cons, List.flatten_cons, List.length_append, ih,
      byteToHex, List.length_cons, List.length_nil, List.length_cons]
    omega

theorem hexDigit_isLowerHex {m : Nat} (h : m < 16) : isLowerHex (hexDigit m) = true := by
  have hall : ∀ k, k < 16 → isLowerHex (hexDigit k) = true := by decide
  exact hall m h

theorem hexChars_all (bs : List (Fin 256)) :
    ((bs.map byteToHex).flatten).all isLowerHex = true := by
  induction bs with
  | nil => rfl
  | cons b bs ih =>
    simp only [List.map_cons, List.flatten_cons, List.all_append, ih, Bool.and_true]
    simp only [byteToHex, List.all_cons, List.all_nil, Bool.and_true]
    have h1 : b.val / 16 < 16 := by omega
    have h2 : b.val % 16 < 16 := Nat.mod_lt _ (by omega)
    rw [hexDigit_isLowerHex h1, hexDigit_isLowerHex h2]
    rfl

/-- For a non-negative character count, `RandomId.generate` succeeds and
returns `min n (2 * ceil(n / 2))` lowercase hexadecimal characters. -/
theorem generate_spec (src : Nat → Fin 256) (n : Int) (h : 0 ≤ n) :
    ∃ s : String, RandomId.generate src n = Except.ok s
      ∧ s.length = min n.toNat (2 * (ceilHalf n).toNat)
      ∧ s.data.all isLowerHex = true := by
  have hcb : ¬ ceilHalf n < 0 := by
    rw [ceilHalf_eq]
    omega
  refine ⟨⟨pySliceTo (((List.range (ceilHalf n).toNat).map src).map byteToHex).flatten n⟩, ?_, ?_, ?_⟩
  · unfold RandomId.generate
    rw [if_neg hcb]
  · show (pySliceTo (((List.range (ceilHalf n).toNat).map src).map byteToHex).flatten n).length = _
    unfold pySliceTo
    rw [if_pos h, List.length_take, hexChars_length, List.length_map, List.length_range]
  · show ((pySliceTo (((List.range (ceilHalf n).toNat).map src).map byteToHex).flatten n).all isLowerHex) = true
    unfold pySliceTo
    rw [if_pos h]
    apply List.all_eq_true.mpr
    intro x hx
    exact List.all_eq_true.mp (hexChars_all ((List.range (ceilHalf n).toNat).map src)) x
      (List.take_subset _ _ hx)

theorem randomId8_ok (src : Nat → Fin 256) :
    RandomId.generate src 8 = Except.ok (randomId8 src) ∧ (randomId8 src).length = 8 := by
  obtain ⟨s, hok, hlen, -⟩ := generate_spec src 8 (by norm_num)
  have h8 : randomId8 src = s := by
    unfold randomId8
    rw [hok]
  rw [h8, hok, hlen]
  refine ⟨rfl, ?_⟩
  rfl

/-! ## Claim C3 -/

/-- **C3**: for every integer `n ≥ 1`, `RandomId.generate(n)` returns a string
of exactly `n` lowercase hexadecimal characters; the byte count requested from
the random source is `ceil(n / 2)`, which for odd `n` is `(n + 1) / 2`, the
hex string then being truncated to exactly `n` characters. -/
theorem C3_generate_length_and_hex (src : Nat → Fin 256) (n : Int) (h : 1 ≤ n) :
    ∃ s : String, RandomId.generate src n = Except.ok s
      ∧ s.length = n.toNat
      ∧ s.data.all isLowerHex = true
      ∧ (n % 2 = 1 → ceilHalf n = (n + 1) / 2) := by
  obtain ⟨s, hok, hlen, hhex⟩ := generate_spec src n (by omega)
  refine ⟨s, hok, ?_, hhex, fun _ => ceilHalf_eq n⟩
  rw [hlen, ceilHalf_eq]
  omega

/-- Witness for C3 at `n = 5` with the all-zero byte source. -/
theorem C3_generate_length_and_hex_witness :
    (1 : Int) ≤ 5
    ∧ ∃ s : String, RandomId.generate src0 5 = Except.ok s
        ∧ s.length = (5 : Int).toNat
        ∧ s.data.all isLowerHex = true
        ∧ ((5 : Int) % 2 = 1 → ceilHalf 5 = (5 + 1) / 2) :=
  ⟨by norm_num, C3_generate_length_and_hex src0 5 (by norm_num)⟩

/-! ## Claim C10 -/

/-- **C10** fails as stated: for `n = -2` the computed byte count
`ceil(-2 / 2) = -1` is negative, so `os.urandom` raises `ValueError` instead
of the claimed empty-string return. -/
theorem C10_counterexample :
    RandomId.generate src0 (-2) = Except.error "ValueError: negative argument not allowed" := rfl

/-- **C10** (amended): for `n = 0` and `n = -1` the computed byte count is
zero and `RandomId.generate(n)` returns the empty string without error, but
for every `n ≤ -2` the computed byte count is negative and the call raises
`ValueError`: the function is total only down to `n = -1`. -/
theorem C10_nonpositive (src : Nat → Fin 256) (n : Int) (h : n ≤ 0) :
    (-1 ≤ n → RandomId.generate src n = Except.ok "")
    ∧ (n ≤ -2 → RandomId.generate src n = Except.error "ValueError: negative argument not allowed") := by
  constructor
  · intro h1
    have hn : n = 0 ∨ n = -1 := by omega
    rcases hn with rfl | rfl
    · rfl
    · rfl
  · intro h2
    have hcb : ceilHalf n < 0 := by
      rw [ceilHalf_eq]
      omega
    unfold RandomId.generate
    rw [if_pos hcb]

/-- Witness for C10 at `n = -1`. -/
theorem C10_nonpositive_witness :
    (-1 : Int) ≤ 0
    ∧ (-1 ≤ (-1 : Int) → RandomId.generate src0 (-1) = Except.ok "")
    ∧ ((-1 : Int) ≤ -2 →
        RandomId.generate src0 (-1) = Except.error "ValueError: negative argument not allowed") :=
  ⟨by norm_num, C10_nonpositive src0 (-1) (by norm_num)⟩

/-! ## Claim C1 -/

/-- **C1** fails as stated: for type `Note`, the filename `Query.Note.req.vtl`
has the form the claim describes — kind `Query` purely alphabetic, name `Note`
purely alphabetic and ending in the type name with no trailing `s` — yet the
pattern does not match it (the regex requires `[a-zA-Z]+` before the type
name), and resolver generation over a directory holding that file and its
response sibling declares no resolver at all. -/
theorem C1_counterexample :
    ("Query.Note.req.vtl" : String) = "Query" ++ "." ++ "Note" ++ ".req.vtl"
    ∧ alphaStr "Query" = true
    ∧ alphaStr "Note" = true
    ∧ ("Note" : String) = "" ++ "Note"
    ∧ resolverMatch "Note" "Query.Note.req.vtl" = none
    ∧ generateResolvers fsNoPrefix (amplifyApiBuildDir "notespulumi") "notespulumi"
        "api0000" "NoteTableDataSource_00000000" "Note" = Except.ok [] :=
  ⟨rfl, rfl, rfl, rfl, rfl, rfl⟩

/-- **C1** (amended): for every purely-alphabetic type name `T`, the pattern
matches a filename with groups `(k, n)` exactly when the filename is
`<k>.<n>.req.vtl`, optionally followed by one trailing newline (tolerated by
the Python `$` anchor), where `<k>` is nonempty purely alphabetic and `<n>`
is `<p>T` or `<p>Ts` for some nonempty purely alphabetic `<p>` — i.e. at
least one character precedes the type name; each matched file yields exactly
one resolver whose type is `<k>` and field is `<n>`.  In particular, for type
`Note` the directory `fs0` yields exactly the two resolvers `Query.getNote`
and `Query.getNotes`, and `Mutation.updateThing.req.vtl` yields none. -/
theorem C1_resolver_naming :
    (∀ T f k n : String, alphaStr T = true →
        (resolverMatch T f = some (k, n) ↔
          ((f = k ++ "." ++ n ++ ".req.vtl" ∨ f = k ++ "." ++ n ++ ".req.vtl" ++ "\n")
            ∧ k.data ≠ [] ∧ alphaStr k = true
            ∧ ∃ p : String, p.data ≠ [] ∧ alphaStr p = true ∧ (n = p ++ T ∨ n = p ++ T ++ "s"))))
    ∧ (∀ fs dir stack apiId ds T name content rest k n resContent rs,
        resolverMatch T name = some (k, n) →
        readText fs (dir ++ "/" ++ k ++ "." ++ n ++ ".res.vtl") = Except.ok resContent →
        generateResolversFrom fs dir stack apiId ds T rest = Except.ok rs →
        generateResolversFrom fs dir stack apiId ds T ((name, content) :: rest)
          = Except.ok ({ resourceName := stack ++ "_" ++ n ++ "_resolver"
                         apiId := apiId
                         dataSource := ds
                         field := n
                         type := k
                         requestTemplate := content
                         responseTemplate := resContent } :: rs))
    ∧ generateResolvers fs0 (amplifyApiBuildDir "notespulumi") "notespulumi" "api0000"
        "NoteTableDataSource_00000000" "Note"
        = Except.ok
            [{ resourceName := "notespulumi_getNote_resolver"
               apiId := "api0000"
               dataSource := "NoteTableDataSource_00000000"
               field := "getNote"
               type := "Query"
               requestTemplate := "REQ-getNote"
               responseTemplate := "RES-getNote" },
             { resourceName := "notespulumi_getNotes_resolver"
               apiId := "api0000"
               dataSource := "NoteTableDataSource_00000000"
               field := "getNotes"
               type := "Query"
               requestTemplate := "REQ-getNotes"
               responseTemplate := "RES-getNotes" }] := by
  refine ⟨?_, ?_, rfl⟩
  · intro T f k n hT
    exact resolverMatch_eq_some_iff hT
  · intro fs dir stack apiId ds T name content rest k n resContent rs hm hr hrest
    simp only [generateResolversFrom, hm, hr, hrest]

/-- Witness for C1: the matcher applied to the three concrete filenames of
the claim, through the characterisation. -/
theorem C1_resolver_naming_witness :
    resolverMatch "Note" "Query.getNote.req.vtl" = some ("Query", "getNote") :=
  (C1_resolver_naming.1 "Note" "Query.getNote.req.vtl" "Query" "getNote" rfl).mpr
    ⟨Or.inl rfl, by decide, rfl, ⟨"get", by decide, rfl, Or.inl rfl⟩⟩

/-! ## Claim C8 -/

theorem body_getLast (a b : List Char) :
    (a ++ '.' :: (b ++ '.' :: reqVtlChars)).getLast? = some 'l' := by
  have hsplit : a ++ '.' :: (b ++ '.' :: reqVtlChars)
      = (a ++ '.' :: (b ++ ['.', 'r', 'e', 'q', '.', 'v', 't'])) ++ ['l'] := by
    simp [reqVtlChars]
  rw [hsplit, List.getLast?_concat]

theorem append_dot_inj {a b a' b' : List Char} (ha : '.' ∉ a) (ha' : '.' ∉ a')
    (h : a ++ '.' :: b = a' ++ '.' :: b') : a = a' ∧ b = b' := by
  have h1 : splitAtFirstDot (a ++ '.' :: b) = some (a, b) :=
    splitAtFirstDot_eq_some.mpr ⟨rfl, ha⟩
  have h2 : splitAtFirstDot (a' ++ '.' :: b') = some (a', b') :=
    splitAtFirstDot_eq_some.mpr ⟨rfl, ha'⟩
  rw [h, h2] at h1
  have := Option.some.inj h1
  exact ⟨(congrArg Prod.fst this).symm, (congrArg Prod.snd this).symm⟩

theorem bodyChars_eq {k n : String} :
    (k ++ "." ++ n ++ ".req.vtl").data = k.data ++ '.' :: (n.data ++ '.' :: reqVtlChars) := by
  rw [String.data_append, String.data_append, String.data_append, dotReqVtl_data, dot_data]
  simp

/-- **C8**: a request-template file whose operation name is the bare type
name — no preceding characters — never matches, because the pattern requires
at least one alphabetic character before the type name; concretely, for type
`Note`, neither `Query.Note.req.vtl` nor the pluralized `Query.Notes.req.vtl`
matches, and a directory holding both (with response siblings) yields an
empty resolver set without error. -/
theorem C8_bare_type_name_skipped :
    (∀ T kind : String, alphaStr T = true → alphaStr kind = true →
        resolverMatch T (kind ++ "." ++ T ++ ".req.vtl") = none)
    ∧ resolverMatch "Note" "Query.Note.req.vtl" = none
    ∧ resolverMatch "Note" "Query.Notes.req.vtl" = none
    ∧ generateResolvers fsBareNames (amplifyApiBuildDir "notespulumi") "notespulumi"
        "api0000" "NoteTableDataSource_00000000" "Note" = Except.ok [] := by
  refine ⟨?_, rfl, rfl, rfl⟩
  intro T kind hT hkind
  cases hm : resolverMatch T (kind ++ "." ++ T ++ ".req.vtl") with
  | none => rfl
  | some kn =>
    obtain ⟨k, n⟩ := kn
    exfalso
    obtain ⟨hf, hkne, hkalpha, p, hpne, hpalpha, hn⟩ := (resolverMatch_eq_some_iff hT).mp hm
    have hnalpha : n.data.all latinAlpha = true := by
      rcases hn with rfl | rfl
      · rw [String.data_append, List.all_append]
        rw [show p.data.all latinAlpha = true from hpalpha,
          show T.data.all latinAlpha = true from hT]
        rfl
      · rw [String.data_append, String.data_append, List.all_append, List.all_append]
        rw [show p.data.all latinAlpha = true from hpalpha,
          show T.data.all latinAlpha = true from hT]
        rfl
    rcases hf with hf | hf
    · have hd := congrArg String.data hf
      rw [bodyChars_eq, bodyChars_eq] at hd
      obtain ⟨-, hd2⟩ := append_dot_inj (not_dot_mem_of_all_alpha hkind)
        (not_dot_mem_of_all_alpha hkalpha) hd
      obtain ⟨hTn, -⟩ := append_dot_inj (not_dot_mem_of_all_alpha hT)
        (not_dot_mem_of_all_alpha hnalpha) hd2
      have hplen : 0 < p.data.length := List.length_pos.mpr hpne
      rcases hn with rfl | rfl
      · have hlen := congrArg List.length hTn
        rw [String.data_append, List.length_append] at hlen
        omega
      · have hlen := congrArg List.length hTn
        rw [String.data_append, String.data_append,
          show ("s" : String).data = ['s'] from by decide] at hlen
        rw [List.length_append, List.length_append] at hlen
        simp only [List.length_cons, List.length_nil] at hlen
        omega
    · have hd := congrArg (fun s => String.data s |>.getLast?) hf
      simp only at hd
      rw [bodyChars_eq] at hd
      rw [String.data_append, newline_data, bodyChars_eq, List.getLast?_concat] at hd
      rw [body_getLast] at hd
      exact absurd (Option.some.inj hd) (by decide)

/-- Witness for C8 at type `Note`, kind `Query`. -/
theorem C8_bare_type_name_skipped_witness :
    resolverMatch "Note" ("Query" ++ "." ++ "Note" ++ ".req.vtl") = none :=
  C8_bare_type_name_skipped.1 "Note" "Query" rfl rfl

/-! ## Claim C7 -/

/-- **C7**: an entry whose filename does not match the pattern for the type
is skipped silently: iterating it is the identity on the computation — no
error is raised and its content is never consulted by the iteration — so the
whole iteration equals the iteration over the matching entries alone
(response-sibling lookups still consult the full filesystem). -/
theorem C7_nonmatching_skipped :
    (∀ fs dir stack apiId ds T name content rest,
        resolverMatch T name = none →
        generateResolversFrom fs dir stack apiId ds T ((name, content) :: rest)
          = generateResolversFrom fs dir stack apiId ds T rest)
    ∧ (∀ fs dir stack apiId ds T entries,
        generateResolversFrom fs dir stack apiId ds T entries
          = generateResolversFrom fs dir stack apiId ds T
              (entries.filter (fun e => (resolverMatch T e.1).isSome))) := by
  constructor
  · intro fs dir stack apiId ds T name content rest hm
    simp only [generateResolversFrom, hm]
  · intro fs dir stack apiId ds T entries
    induction entries with
    | nil => rfl
    | cons e rest ih =>
      obtain ⟨name, content⟩ := e
      cases hm : resolverMatch T name with
      | none =>
        rw [List.filter_cons, if_neg (by simp [hm])]
        rw [← ih]
        simp only [generateResolversFrom, hm]
      | some kn =>
        obtain ⟨k, n⟩ := kn
        rw [List.filter_cons, if_pos (by simp [hm])]
        simp only [generateResolversFrom, hm, ih]

/-- Witness for C7: iterating the non-matching `Mutation.updateThing.req.vtl`
entry for type `Note` leaves the computation unchanged. -/
theorem C7_nonmatching_skipped_witness :
    generateResolversFrom fs0 resolversDir0 "notespulumi" "api0000"
        "NoteTableDataSource_00000000" "Note" [("Mutation.updateThing.req.vtl", "REQ")]
      = generateResolversFrom fs0 resolversDir0 "notespulumi" "api0000"
          "NoteTableDataSource_00000000" "Note" [] :=
  C7_nonmatching_skipped.1 fs0 resolversDir0 "notespulumi" "api0000"
    "NoteTableDataSource_00000000" "Note" "Mutation.updateThing.req.vtl" "REQ" [] rfl

/-! ## Unfolding equations for the construction -/

theorem readText_found {fs : FileSystem} {p c : String} (h : findFile fs p = some c) :
    readText fs p = Except.ok c := by
  unfold readText
  rw [h]

theorem readText_missing {fs : FileSystem} {p : String} (h : findFile fs p = none) :
    readText fs p = Except.error ("FileNotFoundError: " ++ p) := by
  unfold readText
  rw [h]

theorem readText_error_form {fs : FileSystem} {p e : String}
    (h : readText fs p = Except.error e) : e = "FileNotFoundError: " ++ p := by
  unfold readText at h
  cases hf : findFile fs p with
  | none =>
    rw [hf] at h
    exact (Except.error.inj h).symm
  | some c =>
    rw [hf] at h
    exact absurd h (by simp)

theorem generateDynamoDataSource_eq (env : Env) (fs : FileSystem)
    (buildDir stack rc : String) (api : GraphQLApi) (t : String) :
    generateDynamoDataSource env fs buildDir stack rc api t
      = match generateResolvers fs buildDir stack api.id (t ++ "TableDataSource_" ++ rc) t with
        | Except.error e => Except.error e
        | Except.ok resolvers =>
          Except.ok
            { typeName := t
              table :=
                { resourceName := stack ++ "_" ++ t ++ "_table"
                  name := stack ++ "_" ++ rc ++ "." ++ t
                  hashKey := "id"
                  attributes := [("id", "S")]
                  billingMode := "PAY_PER_REQUEST" }
              dataSourceIamRole :=
                { resourceName := stack ++ "_" ++ t ++ "_role"
                  trustedService := "appsync.amazonaws.com"
                  trustedAction := "sts:AssumeRole"
                  name := env.autoName (stack ++ "_" ++ t ++ "_role")
                  arn := env.autoArn (stack ++ "_" ++ t ++ "_role") }
              dataSourceIamRolePolicy :=
                { resourceName := stack ++ "_" ++ t ++ "_role_policy"
                  role := env.autoName (stack ++ "_" ++ t ++ "_role")
                  name := "MyDynamoDBAccess"
                  policyVersion := "2012-10-17"
                  policyStatements :=
                    [{ effect := "Allow"
                       actions := dynamoDbActions
                       resources :=
                         [tableArn env.region env.accountId (stack ++ "_" ++ rc ++ "." ++ t),
                          tableArn env.region env.accountId (stack ++ "_" ++ rc ++ "." ++ t)
                            ++ "/*"] }] }
              dataSource :=
                { resourceName := stack ++ "_" ++ t ++ "_data_source"
                  apiId := api.id
                  name := t ++ "TableDataSource_" ++ rc
                  type := "AMAZON_DYNAMODB"
                  serviceRoleArn := env.autoArn (stack ++ "_" ++ t ++ "_role")
                  dynamodbTableName := stack ++ "_" ++ rc ++ "." ++ t
                  dependsOn := [stack ++ "_" ++ t ++ "_role"] }
              resolvers := resolvers } := rfl

theorem amplifyGraphQLAPI_eq (env : Env) (src : Nat → Fin 256) (fs : FileSystem)
    (nm apiName : String) (types : List String) (upId upcId csp : String) :
    amplifyGraphQLAPI env src fs nm apiName types upId upcId csp
      = match readText fs (schemaPath apiName) with
        | Except.error e => Except.error e
        | Except.ok schema =>
          match declareTypes env fs (amplifyApiBuildDir apiName) apiName (randomId8 src)
              { resourceName := apiName ++ "_graphql_api"
                authenticationType := "AMAZON_COGNITO_USER_POOLS"
                defaultAction := "ALLOW"
                userPoolId := upId
                appIdClientRegex := upcId
                schema := schema
                id := env.graphqlApiId
                uriGraphql := env.graphqlUri } types with
          | Except.error e => Except.error e
          | Except.ok perType =>
            Except.ok
              { graphqlApi :=
                  { resourceName := apiName ++ "_graphql_api"
                    authenticationType := "AMAZON_COGNITO_USER_POOLS"
                    defaultAction := "ALLOW"
                    userPoolId := upId
                    appIdClientRegex := upcId
                    schema := schema
                    id := env.graphqlApiId
                    uriGraphql := env.graphqlUri }
                perType := perType
                exportsFile :=
                  { resourceName := apiName ++ "_exports_file"
                    sourceDirectory := csp
                    parameters :=
                      [("aws_project_region", env.region),
                       ("aws_cognito_region", env.region),
                       ("aws_user_pools_id", upId),
                       ("aws_user_pools_web_client_id", upcId),
                       ("aws_appsync_graphqlEndpoint", env.graphqlUri),
                       ("aws_appsync_region", env.region),
                       ("aws_appsync_authenticationType", "AMAZON_COGNITO_USER_POOLS")] }
                graphql_api_uri := env.graphqlUri } := rfl

/-! ## Error propagation lemmas -/

theorem generateResolversFrom_error_form
    {fs : FileSystem} {dir stack apiId ds T : String} {entries : List (String × String)}
    {e : String}
    (h : generateResolversFrom fs dir stack apiId ds T entries = Except.error e) :
    ∃ p, e = "FileNotFoundError: " ++ p := by
  induction entries generalizing e with
  | nil => exact absurd h (by simp [generateResolversFrom])
  | cons ent rest ih =>
    obtain ⟨name, content⟩ := ent
    cases hm : resolverMatch T name with
    | none =>
      simp only [generateResolversFrom, hm] at h
      exact ih h
    | some kn =>
      obtain ⟨k, n⟩ := kn
      simp only [generateResolversFrom, hm] at h
      cases hr : readText fs (dir ++ "/" ++ k ++ "." ++ n ++ ".res.vtl") with
      | error e2 =>
        simp only [hr] at h
        exact ⟨dir ++ "/" ++ k ++ "." ++ n ++ ".res.vtl",
          (Except.error.inj h).symm.trans (readText_error_form hr)⟩
      | ok rc =>
        simp only [hr] at h
        cases hrec : generateResolversFrom fs dir stack apiId ds T rest with
        | error e3 =>
          simp only [hrec] at h
          rw [← Except.error.inj h]
          exact ih hrec
        | ok rs =>
          simp only [hrec] at h
          exact absurd h (by simp)

theorem generateResolversFrom_missing_res
    {fs : FileSystem} {dir stack apiId ds T name content k n : String}
    {entries : List (String × String)}
    (hmem : (name, content) ∈ entries)
    (hm : resolverMatch T name = some (k, n))
    (hmiss : findFile fs (dir ++ "/" ++ k ++ "." ++ n ++ ".res.vtl") = none) :
    ∃ e, generateResolversFrom fs dir stack apiId ds T entries = Except.error e := by
  induction entries with
  | nil => cases hmem
  | cons ent rest ih =>
    obtain ⟨name2, content2⟩ := ent
    rcases List.mem_cons.mp hmem with heq | hmem2
    · injection heq with h1 h2
      subst h1
      subst h2
      simp only [generateResolversFrom, hm, readText_missing hmiss]
      exact ⟨_, rfl⟩
    · cases hm2 : resolverMatch T name2 with
      | none =>
        simp only [generateResolversFrom, hm2]
        exact ih hmem2
      | some kn2 =>
        obtain ⟨k2, n2⟩ := kn2
        simp only [generateResolversFrom, hm2]
        cases hr : readText fs (dir ++ "/" ++ k2 ++ "." ++ n2 ++ ".res.vtl") with
        | error e2 =>
          simp only [hr]
          exact ⟨e2, rfl⟩
        | ok rc =>
          simp only [hr]
          obtain ⟨e3, he3⟩ := ih hmem2
          simp only [he3]
          exact ⟨e3, rfl⟩

theorem declareTypes_member_error
    {env : Env} {fs : FileSystem} {buildDir stack rc : String} {api : GraphQLApi}
    {types : List String} {t e : String}
    (hmem : t ∈ types)
    (herr : generateDynamoDataSource env fs buildDir stack rc api t = Except.error e) :
    ∃ e2, declareTypes env fs buildDir stack rc api types = Except.error e2 := by
  induction types with
  | nil => cases hmem
  | cons t2 rest ih =>
    rcases List.mem_cons.mp hmem with rfl | hmem2
    · simp only [declareTypes, herr]
      exact ⟨e, rfl⟩
    · cases hg : generateDynamoDataSource env fs buildDir stack rc api t2 with
      | error e2 =>
        simp only [declareTypes, hg]
        exact ⟨e2, rfl⟩
      | ok r =>
        simp only [declareTypes, hg]
        obtain ⟨e3, he3⟩ := ih hmem2
        simp only [he3]
        exact ⟨e3, rfl⟩

theorem generateDynamoDataSource_error_form
    {env : Env} {fs : FileSystem} {buildDir stack rc : String} {api : GraphQLApi}
    {t e : String}
    (h : generateDynamoDataSource env fs buildDir stack rc api t = Except.error e) :
    ∃ p, e = "FileNotFoundError: " ++ p := by
  rw [generateDynamoDataSource_eq] at h
  cases hg : generateResolvers fs buildDir stack api.id (t ++ "TableDataSource_" ++ rc) t with
  | error e2 =>
    rw [hg] at h
    rw [← Except.error.inj h]
    exact generateResolversFrom_error_form hg
  | ok rs =>
    rw [hg] at h
    exact absurd h (by simp)

theorem declareTypes_error_form
    {env : Env} {fs : FileSystem} {buildDir stack rc : String} {api : GraphQLApi}
    {types : List String} {e : String}
    (h : declareTypes env fs buildDir stack rc api types = Except.error e) :
    ∃ p, e = "FileNotFoundError: " ++ p := by
  induction types generalizing e with
  | nil => exact absurd h (by simp [declareTypes])
  | cons t rest ih =>
    cases hg : generateDynamoDataSource env fs buildDir stack rc api t with
    | error e2 =>
      simp only [declareTypes, hg] at h
      rw [← Except.error.inj h]
      exact generateDynamoDataSource_error_form hg
    | ok r =>
      simp only [declareTypes, hg] at h
      cases hrec : declareTypes env fs buildDir stack rc api rest with
      | error e3 =>
        simp only [hrec] at h
        rw [← Except.error.inj h]
        exact ih hrec
      | ok rs =>
        simp only [hrec] at h
        exact absurd h (by simp)

/-! ## Claim C4 -/

/-- **C4**: if a directory entry matches the pattern for the type but the
sibling file with `.req.vtl` replaced by `.res.vtl` is absent, resolver
generation — and with it the whole API construction, when the type is among
the declared types and the schema file exists — fails with a
`FileNotFoundError` raised at read time, so no resolver set is produced for
that directory at all. -/
theorem C4_missing_response_fails
    (env : Env) (src : Nat → Fin 256) (fs : FileSystem)
    (nm apiName stack apiId ds T name content k n upId upcId csp : String)
    (types : List String)
    (hmem : (name, content) ∈ iterdir fs (amplifyApiBuildDir apiName ++ "/resolvers"))
    (hm : resolverMatch T name = some (k, n))
    (hmiss : findFile fs
        (amplifyApiBuildDir apiName ++ "/resolvers" ++ "/" ++ k ++ "." ++ n ++ ".res.vtl")
        = none) :
    (∃ p, generateResolvers fs (amplifyApiBuildDir apiName) stack apiId ds T
        = Except.error ("FileNotFoundError: " ++ p))
    ∧ (T ∈ types → (∃ sch, findFile fs (schemaPath apiName) = some sch) →
        ∃ p, amplifyGraphQLAPI env src fs nm apiName types upId upcId csp
          = Except.error ("FileNotFoundError: " ++ p)) := by
  constructor
  · obtain ⟨e, he⟩ := @generateResolversFrom_missing_res fs
      (amplifyApiBuildDir apiName ++ "/resolvers") stack apiId ds T name content k n
      (iterdir fs (amplifyApiBuildDir apiName ++ "/resolvers")) hmem hm hmiss
    obtain ⟨p, hp⟩ := generateResolversFrom_error_form he
    refine ⟨p, ?_⟩
    unfold generateResolvers
    rw [he, hp]
  · rintro hTmem ⟨sch, hsch⟩
    obtain ⟨e1, he1⟩ := @generateResolversFrom_missing_res fs
      (amplifyApiBuildDir apiName ++ "/resolvers") apiName env.graphqlApiId
      (T ++ "TableDataSource_" ++ randomId8 src) T name content k n
      (iterdir fs (amplifyApiBuildDir apiName ++ "/resolvers")) hmem hm hmiss
    have he1' : generateResolvers fs (amplifyApiBuildDir apiName) apiName
        (GraphQLApi.id
          { resourceName := apiName ++ "_graphql_api"
            authenticationType := "AMAZON_COGNITO_USER_POOLS"
            defaultAction := "ALLOW"
            userPoolId := upId
            appIdClientRegex := upcId
            schema := sch
            id := env.graphqlApiId
            uriGraphql := env.graphqlUri })
        (T ++ "TableDataSource_" ++ randomId8 src) T = Except.error e1 := by
      unfold generateResolvers
      exact he1
    have hgds : generateDynamoDataSource env fs (amplifyApiBuildDir apiName) apiName
        (randomId8 src)
        { resourceName := apiName ++ "_graphql_api"
          authenticationType := "AMAZON_COGNITO_USER_POOLS"
          defaultAction := "ALLOW"
          userPoolId := upId
          appIdClientRegex := upcId
          schema := sch
          id := env.graphqlApiId
          uriGraphql := env.graphqlUri } T = Except.error e1 := by
      rw [generateDynamoDataSource_eq, he1']
    obtain ⟨e2, he2⟩ := declareTypes_member_error hTmem hgds
    obtain ⟨p2, hp2⟩ := declareTypes_error_form he2
    refine ⟨p2, ?_⟩
    rw [amplifyGraphQLAPI_eq]
    simp only [readText_found hsch, he2]
    rw [hp2]

/-- Witness for C4: the concrete filesystem `fsMissingRes` has
`Query.getNote.req.vtl` but no `Query.getNote.res.vtl`, and constructing the
API for `["Note"]` over it fails with a `FileNotFoundError`. -/
theorem C4_missing_response_fails_witness :
    ∃ p, amplifyGraphQLAPI env0 src0 fsMissingRes "NotesAmplifyGraphQLAPI" "notespulumi"
        ["Note"] "pool0" "client0" "src" = Except.error ("FileNotFoundError: " ++ p) :=
  (C4_missing_response_fails env0 src0 fsMissingRes "NotesAmplifyGraphQLAPI" "notespulumi"
      "notespulumi" "api0000" "NoteTableDataSource_00000000" "Note"
      "Query.getNote.req.vtl" "REQ-getNote" "Query" "getNote"
      "pool0" "client0" "src" ["Note"] (by decide) rfl rfl).2
    (by decide) ⟨"type Note \x7b id: ID! \x7d", rfl⟩

/-! ## Claim C6 -/

theorem findFile_of_readText {fs : FileSystem} {p c : String}
    (h : readText fs p = Except.ok c) : findFile fs p = some c := by
  unfold readText at h
  cases hf : findFile fs p with
  | none =>
    rw [hf] at h
    exact absurd h (by simp)
  | some c2 =>
    rw [hf] at h
    rw [Except.ok.inj h]

/-- **C6**: the constructor reads the schema from exactly
`amplify/backend/api/<api-name>/build/schema.graphql`; when that file is
absent, construction fails with the `FileNotFoundError` for that very path —
the result is an error, so no GraphQL API resource is declared — and when
construction succeeds, the declared API's schema is that file's content. -/
theorem C6_schema_read :
    (schemaPath = fun apiName => "amplify/backend/api/" ++ apiName ++ "/build/schema.graphql")
    ∧ (∀ env src fs nm apiName types upId upcId csp,
        findFile fs (schemaPath apiName) = none →
        amplifyGraphQLAPI env src fs nm apiName types upId upcId csp
          = Except.error ("FileNotFoundError: " ++ schemaPath apiName))
    ∧ (∀ env src fs nm apiName types upId upcId csp comp,
        amplifyGraphQLAPI env src fs nm apiName types upId upcId csp = Except.ok comp →
        findFile fs (schemaPath apiName) = some comp.graphqlApi.schema) := by
  refine ⟨?_, ?_, ?_⟩
  · funext apiName
    apply String.ext
    simp only [schemaPath, amplifyApiBuildDir, String.data_append, List.append_assoc]
    have hlit : ("/build" : String).data ++ ("/schema.graphql" : String).data
        = ("/build/schema.graphql" : String).data := by decide
    rw [hlit]
  · intro env src fs nm apiName types upId upcId csp h
    rw [amplifyGraphQLAPI_eq]
    simp only [readText_missing h]
  · intro env src fs nm apiName types upId upcId csp comp h
    rw [amplifyGraphQLAPI_eq] at h
    cases hrt : readText fs (schemaPath apiName) with
    | error e =>
      simp only [hrt] at h
      exact absurd h (by simp)
    | ok sch =>
      simp only [hrt] at h
      cases hdt : declareTypes env fs (amplifyApiBuildDir apiName) apiName (randomId8 src)
          { resourceName := apiName ++ "_graphql_api"
            authenticationType := "AMAZON_COGNITO_USER_POOLS"
            defaultAction := "ALLOW"
            userPoolId := upId
            appIdClientRegex := upcId
            schema := sch
            id := env.graphqlApiId
            uriGraphql := env.graphqlUri } types with
      | error e =>
        simp only [hdt] at h
        exact absurd h (by simp)
      | ok perType =>
        simp only [hdt] at h
        rw [← Except.ok.inj h]
        exact findFile_of_readText hrt

/-- Witness for C6: the schema-less filesystem `fsNoSchema` makes the
construction fail with the `FileNotFoundError` naming the schema path. -/
theorem C6_schema_read_witness :
    amplifyGraphQLAPI env0 src0 fsNoSchema "NotesAmplifyGraphQLAPI" "notespulumi" ["Note"]
        "pool0" "client0" "src"
      = Except.error ("FileNotFoundError: " ++ schemaPath "notespulumi") :=
  C6_schema_read.2.1 env0 src0 fsNoSchema "NotesAmplifyGraphQLAPI" "notespulumi" ["Note"]
    "pool0" "client0" "src" rfl

/-! ## Claim C2 -/

/-- **C2** fails as stated: the inline role policy declared by
`generate_dynamo_data_source` grants eight item-level DynamoDB actions, not
seven, as evaluating a concrete declaration for type `Note` shows. -/
theorem C2_counterexample :
    (generateDynamoDataSource env0 fs0 (amplifyApiBuildDir "notespulumi") "notespulumi"
        "00000000" api0 "Note").map
        (fun r => r.dataSourceIamRolePolicy.policyStatements.map fun st => st.actions.length)
      = Except.ok [8] := rfl

/-- **C2** (amended): for every type, the declared inline role policy has one
`Allow` statement granting exactly the eight item-level DynamoDB read/write
actions of the source (`BatchGetItem`, `BatchWriteItem`, `PutItem`,
`DeleteItem`, `GetItem`, `Scan`, `Query`, `UpdateItem`), and its `Resource`
list holds exactly the declared table's ARN and that ARN with `/*` appended,
nothing else. -/
theorem C2_policy_eight_actions_table_scoped :
    dynamoDbActions.length = 8
    ∧ (∀ (env : Env) (fs : FileSystem) (buildDir stack rc : String) (api : GraphQLApi)
        (t : String) (r : TypeResources),
        generateDynamoDataSource env fs buildDir stack rc api t = Except.ok r →
        r.dataSourceIamRolePolicy.policyStatements
          = [{ effect := "Allow"
               actions := dynamoDbActions
               resources := [tableArn env.region env.accountId r.table.name,
                             tableArn env.region env.accountId r.table.name ++ "/*"] }]) := by
  refine ⟨rfl, ?_⟩
  intro env fs buildDir stack rc api t r h
  rw [generateDynamoDataSource_eq] at h
  cases hgr : generateResolvers fs buildDir stack api.id (t ++ "TableDataSource_" ++ rc) t with
  | error e =>
    rw [hgr] at h
    exact absurd h (by simp)
  | ok rs =>
    rw [hgr] at h
    rw [← Except.ok.inj h]

/-- Witness for C2 at a concrete declaration for type `Note`. -/
theorem C2_policy_eight_actions_table_scoped_witness :
    ∃ r, generateDynamoDataSource env0 fs0 (amplifyApiBuildDir "notespulumi") "notespulumi"
        "00000000" api0 "Note" = Except.ok r
      ∧ r.dataSourceIamRolePolicy.policyStatements
          = [{ effect := "Allow"
               actions := dynamoDbActions
               resources := [tableArn env0.region env0.accountId r.table.name,
                             tableArn env0.region env0.accountId r.table.name ++ "/*"] }] := by
  cases hg : generateDynamoDataSource env0 fs0 (amplifyApiBuildDir "notespulumi") "notespulumi"
      "00000000" api0 "Note" with
  | error e =>
    have hok : (generateDynamoDataSource env0 fs0 (amplifyApiBuildDir "notespulumi")
        "notespulumi" "00000000" api0 "Note").isOk = true := by decide
    rw [hg] at hok
    exact absurd (show false = true from hok) (by decide)
  | ok r =>
    exact ⟨r, rfl, C2_policy_eight_actions_table_scoped.2 env0 fs0
      (amplifyApiBuildDir "notespulumi") "notespulumi" "00000000" api0 "Note" r hg⟩

/-! ## Claim C5 -/

/-- **C5**: constructing the component for the type list `["Note"]` declares
exactly one per-type resource bundle — one table, one role, one role policy,
one data source — plus the resolver set generated from the resolver
directory, and the registered `graphql_api_uri` output equals the declared
GraphQL API's resolved `GRAPHQL` endpoint URI. -/
theorem C5_single_type_end_to_end
    (env : Env) (src : Nat → Fin 256) (fs : FileSystem)
    (nm apiName upId upcId csp : String) (comp : Component)
    (h : amplifyGraphQLAPI env src fs nm apiName ["Note"] upId upcId csp = Except.ok comp) :
    comp.perType.length = 1
    ∧ (∃ r, comp.perType = [r]
        ∧ r.typeName = "Note"
        ∧ generateResolvers fs (amplifyApiBuildDir apiName) apiName env.graphqlApiId
            ("Note" ++ "TableDataSource_" ++ randomId8 src) "Note" = Except.ok r.resolvers)
    ∧ comp.graphql_api_uri = comp.graphqlApi.uriGraphql
    ∧ comp.graphqlApi.uriGraphql = env.graphqlUri := by
  rw [amplifyGraphQLAPI_eq] at h
  cases hrt : readText fs (schemaPath apiName) with
  | error e =>
    rw [hrt] at h
    exact absurd h (by simp)
  | ok sch =>
    simp only [hrt] at h
    cases hg : generateDynamoDataSource env fs (amplifyApiBuildDir apiName) apiName
        (randomId8 src)
        { resourceName := apiName ++ "_graphql_api"
          authenticationType := "AMAZON_COGNITO_USER_POOLS"
          defaultAction := "ALLOW"
          userPoolId := upId
          appIdClientRegex := upcId
          schema := sch
          id := env.graphqlApiId
          uriGraphql := env.graphqlUri } "Note" with
    | error e =>
      simp only [declareTypes, hg] at h
      exact absurd h (by simp)
    | ok r =>
      simp only [declareTypes, hg] at h
      rw [← Except.ok.inj h]
      refine ⟨rfl, ⟨r, rfl, ?_, ?_⟩, rfl, rfl⟩
      · rw [generateDynamoDataSource_eq] at hg
        cases hgr : generateResolvers fs (amplifyApiBuildDir apiName) apiName
            env.graphqlApiId ("Note" ++ "TableDataSource_" ++ randomId8 src) "Note" with
        | error e =>
          rw [hgr] at hg
          exact absurd hg (by simp)
        | ok rs =>
          rw [hgr] at hg
          rw [← Except.ok.inj hg]
      · rw [generateDynamoDataSource_eq] at hg
        cases hgr : generateResolvers fs (amplifyApiBuildDir apiName) apiName
            env.graphqlApiId ("Note" ++ "TableDataSource_" ++ randomId8 src) "Note" with
        | error e =>
          rw [hgr] at hg
          exact absurd hg (by simp)
        | ok rs =>
          rw [hgr] at hg
          rw [← Except.ok.inj hg]

/-- Witness for C5 on the concrete example filesystem. -/
theorem C5_single_type_end_to_end_witness :
    ∃ comp, amplifyGraphQLAPI env0 src0 fs0 "NotesAmplifyGraphQLAPI" "notespulumi" ["Note"]
        "pool0" "client0" "src" = Except.ok comp
      ∧ comp.perType.length = 1
      ∧ comp.graphql_api_uri = comp.graphqlApi.uriGraphql := by
  cases hg : amplifyGraphQLAPI env0 src0 fs0 "NotesAmplifyGraphQLAPI" "notespulumi" ["Note"]
      "pool0" "client0" "src" with
  | error e =>
    have hok : (amplifyGraphQLAPI env0 src0 fs0 "NotesAmplifyGraphQLAPI" "notespulumi"
        ["Note"] "pool0" "client0" "src").isOk = true := by decide
    rw [hg] at hok
    exact absurd (show false = true from hok) (by decide)
  | ok comp =>
    obtain ⟨h1, -, h3, -⟩ := C5_single_type_end_to_end env0 src0 fs0 "NotesAmplifyGraphQLAPI"
      "notespulumi" "pool0" "client0" "src" comp hg
    exact ⟨comp, rfl, h1, h3⟩

/-! ## Claim C9 -/

theorem declareTypes_mem
    {env : Env} {fs : FileSystem} {buildDir stack rc : String} {api : GraphQLApi}
    {types : List String} {l : List TypeResources}
    (h : declareTypes env fs buildDir stack rc api types = Except.ok l) :
    ∀ r ∈ l, r.table.name = stack ++ "_" ++ rc ++ "." ++ r.typeName
      ∧ r.dataSource.name = r.typeName ++ "TableDataSource_" ++ rc := by
  induction types generalizing l with
  | nil =>
    simp only [declareTypes] at h
    rw [← Except.ok.inj h]
    intro r hr
    cases hr
  | cons t rest ih =>
    cases hg : generateDynamoDataSource env fs buildDir stack rc api t with
    | error e =>
      simp only [declareTypes, hg] at h
      exact absurd h (by simp)
    | ok r0 =>
      simp only [declareTypes, hg] at h
      cases hrec : declareTypes env fs buildDir stack rc api rest with
      | error e =>
        simp only [hrec] at h
        exact absurd h (by simp)
      | ok l2 =>
        simp only [hrec] at h
        rw [← Except.ok.inj h]
        intro r hr
        rcases List.mem_cons.mp hr with rfl | hr2
        · rw [generateDynamoDataSource_eq] at hg
          cases hgr : generateResolvers fs buildDir stack api.id
              (t ++ "TableDataSource_" ++ rc) t with
          | error e =>
            rw [hgr] at hg
            exact absurd hg (by simp)
          | ok rs =>
            rw [hgr] at hg
            rw [← Except.ok.inj hg]
            exact ⟨rfl, rfl⟩
        · exact ih hrec r hr2

/-- **C9**: the 8-character random suffix is computed once per construction
(`RandomId.generate(8)`, which always succeeds with an 8-character string)
and that same suffix appears in the table name and the data-source name of
every type declared by that construction; any two tables of one construction
share the whole prefix `<api-name>_<suffix>.` and differ only in their
type-name segment. -/
theorem C9_shared_random_suffix
    (env : Env) (src : Nat → Fin 256) (fs : FileSystem)
    (nm apiName : String) (types : List String) (upId upcId csp : String) (comp : Component)
    (h : amplifyGraphQLAPI env src fs nm apiName types upId upcId csp = Except.ok comp) :
    RandomId.generate src 8 = Except.ok (randomId8 src)
    ∧ (randomId8 src).length = 8
    ∧ (∀ r ∈ comp.perType,
        r.table.name = apiName ++ "_" ++ randomId8 src ++ "." ++ r.typeName
        ∧ r.dataSource.name = r.typeName ++ "TableDataSource_" ++ randomId8 src)
    ∧ (∀ r ∈ comp.perType, ∀ r2 ∈ comp.perType,
        r.table.name = (apiName ++ "_" ++ randomId8 src ++ ".") ++ r.typeName
        ∧ r2.table.name = (apiName ++ "_" ++ randomId8 src ++ ".") ++ r2.typeName) := by
  refine ⟨(randomId8_ok src).1, (randomId8_ok src).2, ?_, ?_⟩
  all_goals
    rw [amplifyGraphQLAPI_eq] at h
    cases hrt : readText fs (schemaPath apiName) with
    | error e =>
      rw [hrt] at h
      exact absurd h (by simp)
    | ok sch =>
      simp only [hrt] at h
      cases hdt : declareTypes env fs (amplifyApiBuildDir apiName) apiName (randomId8 src)
          { resourceName := apiName ++ "_graphql_api"
            authenticationType := "AMAZON_COGNITO_USER_POOLS"
            defaultAction := "ALLOW"
            userPoolId := upId
            appIdClientRegex := upcId
            schema := sch
            id := env.graphqlApiId
            uriGraphql := env.graphqlUri } types with
      | error e =>
        simp only [hdt] at h
        exact absurd h (by simp)
      | ok perType =>
        simp only [hdt] at h
        rw [← Except.ok.inj h]
        first
        | exact declareTypes_mem hdt
        | · intro r hr r2 hr2
            exact ⟨(declareTypes_mem hdt r hr).1, (declareTypes_mem hdt r2 hr2).1⟩

/-- Witness for C9 on the concrete example construction. -/
theorem C9_shared_random_suffix_witness :
    ∃ comp, amplifyGraphQLAPI env0 src0 fs0 "NotesAmplifyGraphQLAPI" "notespulumi" ["Note"]
        "pool0" "client0" "src" = Except.ok comp
      ∧ (∀ r ∈ comp.perType,
          r.table.name = "notespulumi" ++ "_" ++ randomId8 src0 ++ "." ++ r.typeName
          ∧ r.dataSource.name = r.typeName ++ "TableDataSource_" ++ randomId8 src0) := by
  cases hg : amplifyGraphQLAPI env0 src0 fs0 "NotesAmplifyGraphQLAPI" "notespulumi" ["Note"]
      "pool0" "client0" "src" with
  | error e =>
    have hok : (amplifyGraphQLAPI env0 src0 fs0 "NotesAmplifyGraphQLAPI" "notespulumi"
        ["Note"] "pool0" "client0" "src").isOk = true := by decide
    rw [hg] at hok
    exact absurd (show false = true from hok) (by decide)
  | ok comp =>
    obtain ⟨-, -, h3, -⟩ := C9_shared_random_suffix env0 src0 fs0 "NotesAmplifyGraphQLAPI"
      "notespulumi" ["Note"] "pool0" "client0" "src" comp hg
    exact ⟨comp, rfl, h3⟩
